import Mathlib

/-!
# Distributed Image Factory — verification of the dispatch/registry/aggregation core

Shallow embedding of the Go sources of the distributed-image-factory
repository:

* `pkg/api` (`Server`, `handleUpload`, `subscribeUpdates`,
  `subscribeSystemEvents`) — the aggregator and HTTP intake;
* `pkg/actors/coordinator.go` (`Coordinator.Act`) — the dispatcher;
* `pkg/actors` worker file (`Worker.Act`) — per-operation workers;
* the etcd registry calls (`Put` / `Delete` / `Get` with a key range)
  used by workers and the coordinator.

Go `int` counters are modelled as `Int` (no overflow is relevant to any
claim), Go maps with zero-value defaults as total functions defaulting
to `0` / `none`, and the etcd keyspace as a `Finset String` of present
keys (an etcd store holds each key at most once; all values written by
this program are the empty string, so only key presence matters).
-/

namespace ImageFactory

/-- The message sent to the `transform-updates` mailbox by a worker and
consumed by `Server.subscribeUpdates`: fields `image_id`, `op`,
`success`, `path` of the `structpb.Struct` result. -/
structure TaskOutcome where
  image_id : String
  op : String
  success : Bool
  path : String
  deriving DecidableEq, Repr

/-- The message sent to the `system-events` mailbox by a worker and
consumed by `Server.subscribeSystemEvents`: fields `event`, `name`,
`op`, `mailbox`. -/
structure LifecycleEvent where
  event : String
  name : String
  op : String
  mailbox : String
  deriving DecidableEq, Repr

/-- The mutable aggregation state of `api.Server`: the variant map and
the counters guarded by `s.mu`.  Go's `map[string]map[string]string`
variant map is modelled as a total function returning `none` where the
Go map has no entry; the per-op `map[string]int` counters default to
`0` exactly as Go map reads do. -/
structure ServerState where
  variants : String → String → Option String
  totalUploads : Int
  totalVariants : Int
  failedVariants : Int
  activeWorkers : Int
  startedWorkers : Int
  activeWorkersPerOp : String → Int
  successPerOp : String → Int
  failedPerOp : String → Int

/-- The state `api.New` constructs: empty variant map, all counters
zero (fresh Go maps read as zero, fresh ints are zero). -/
def initialServer : ServerState where
  variants := fun _ _ => none
  totalUploads := 0
  totalVariants := 0
  failedVariants := 0
  activeWorkers := 0
  startedWorkers := 0
  activeWorkersPerOp := fun _ => 0
  successPerOp := fun _ => 0
  failedPerOp := fun _ => 0

/-- Model of Go `filepath.Base` on the slash-separated, non-empty paths
this system produces: the characters after the last `/` (the whole
path when it contains no `/`). -/
def baseName (p : String) : String :=
  ⟨p.data.foldl (fun acc ch => if ch = '/' then [] else acc ++ [ch]) []⟩

/-- Model of Go `filepath.Dir` on the slash-separated paths this system
produces: the characters strictly before the last `/`. -/
def dirName (p : String) : String :=
  ⟨(((p.data.reverse.dropWhile fun ch => ch ≠ '/').drop 1)).reverse⟩

/-- One iteration of the `Server.subscribeUpdates` loop body on a
well-typed message `m`: unconditionally writes
`variants[id][op] = "/images/<id>/<Base(path)>"`, then increments
either the success counters or the failure counters according to
`m.success`, mirroring `subscribeUpdates` line for line. -/
def applyOutcome (s : ServerState) (m : TaskOutcome) : ServerState :=
  let s := { s with
    variants := fun id op =>
      if id = m.image_id ∧ op = m.op then
        some ("/images/" ++ m.image_id ++ "/" ++ baseName m.path)
      else s.variants id op }
  if m.success then
    { s with
      totalVariants := s.totalVariants + 1
      successPerOp := fun op =>
        if op = m.op then s.successPerOp op + 1 else s.successPerOp op }
  else
    { s with
      failedVariants := s.failedVariants + 1
      failedPerOp := fun op =>
        if op = m.op then s.failedPerOp op + 1 else s.failedPerOp op }

/-- One iteration of the `Server.subscribeSystemEvents` loop body on a
well-typed message `e`: `worker_start` increments the lifetime and
active counters; `worker_stop` decrements the active counters only
when they are strictly positive; any other event string falls through
the `switch` and changes nothing. -/
def applyLifecycle (s : ServerState) (e : LifecycleEvent) : ServerState :=
  if e.event = "worker_start" then
    { s with
      startedWorkers := s.startedWorkers + 1
      activeWorkers := s.activeWorkers + 1
      activeWorkersPerOp := fun op =>
        if op = e.op then s.activeWorkersPerOp op + 1
        else s.activeWorkersPerOp op }
  else if e.event = "worker_stop" then
    { s with
      activeWorkers :=
        if s.activeWorkers > 0 then s.activeWorkers - 1 else s.activeWorkers
      activeWorkersPerOp := fun op =>
        if op = e.op then
          if s.activeWorkersPerOp op > 0 then s.activeWorkersPerOp op - 1
          else s.activeWorkersPerOp op
        else s.activeWorkersPerOp op }
  else s

/-- The aggregator's consumption of a whole sequence of outcome
messages, in arrival order. -/
def processOutcomes (s : ServerState) (ms : List TaskOutcome) : ServerState :=
  ms.foldl applyOutcome s

/-- The aggregator's consumption of a whole sequence of lifecycle
messages, in arrival order. -/
def processLifecycles (s : ServerState) (es : List LifecycleEvent) : ServerState :=
  es.foldl applyLifecycle s

/-- The invariant claimed of the active-worker counters: the global
counter and every per-operation counter are non-negative. -/
def lifecycleInv (s : ServerState) : Prop :=
  0 ≤ s.activeWorkers ∧ ∀ op, 0 ≤ s.activeWorkersPerOp op

/-- The number of outcome messages in `ms` whose `op` field is `op`
(the "outcomes observed for that operation"). -/
def countFor (op : String) (ms : List TaskOutcome) : Int :=
  ((ms.filter fun m => m.op = op).length : Int)

/-! ## Registry (etcd keyspace) -/

/-- The etcd key a worker registers under:
`fmt.Sprintf("/%s/workers/%s/%s", ns, op, mailboxName)`. -/
def workerKey (ns op inst : String) : String :=
  "/" ++ ns ++ "/workers/" ++ op ++ "/" ++ inst

/-- The etcd key range the coordinator queries for an operation:
`fmt.Sprintf("/%s/workers/%s/", ns, op)` with `etcdv3.WithPrefix()`. -/
def workersPfx (ns op : String) : String :=
  "/" ++ ns ++ "/workers/" ++ op ++ "/"

/-- The etcd keyspace: the set of keys currently present.  Every value
this program writes is the empty string, so key presence is the whole
state. -/
abbrev EtcdStore := Finset String

/-- The worker's registration write: `w.Etcd.Put(ctx, key, "")`. -/
def register (ns op inst : String) (st : EtcdStore) : EtcdStore :=
  insert (workerKey ns op inst) st

/-- The worker's deregistration: `w.Etcd.Delete(ctx, key)`. -/
def deregister (ns op inst : String) (st : EtcdStore) : EtcdStore :=
  st.erase (workerKey ns op inst)

/-- The coordinator's discovery read, as a list of member mailbox
names: the keys under the operation's range with the range string
stripped, exactly as `Coordinator.Act` computes `members`. -/
def listOp (ns op : String) (st : EtcdStore) : List String :=
  ((st.filter fun k =>
      k.take (workersPfx ns op).length = workersPfx ns op).sort (· ≤ ·)).map
    fun k => k.drop (workersPfx ns op).length

/-! ## Coordinator (dispatcher) -/

/-- The task message `Coordinator.Act` builds per (upload, op):
fields `image_id`, `op`, `path`. -/
structure Task where
  image_id : String
  op : String
  path : String
  deriving DecidableEq, Repr

/-- One `client.BroadcastC(ctxb, grp.Fastest(), task)` call: the
discovered member set, the group delivery policy, the task, and the
`context.WithTimeout` bound in seconds. -/
structure Broadcast where
  members : List String
  policy : String
  task : Task
  timeoutSeconds : Nat
  deriving DecidableEq, Repr

/-- The operations the coordinator fans out to:
`ops := []string{"thumbnail", "grayscale", "blur", "rotate90"}`. -/
def coordinatorOps : List String :=
  ["thumbnail", "grayscale", "blur", "rotate90"]

/-- Result of the coordinator's etcd range read: an error, or the full
keys of the response. -/
abbrev RegResult := Except Unit (List String)

/-- The `members` slice computed by `Coordinator.Act`: empty on a read
error, otherwise each key's suffix after the queried range string
(appended only when the range string is no longer than the key). -/
def membersOf (pfx : String) (r : RegResult) : List String :=
  match r with
  | .error _ => []
  | .ok kvs =>
      kvs.filterMap fun k =>
        if pfx.length ≤ k.length then some (k.drop pfx.length) else none

/-- The per-operation body of the coordinator's fan-out loop: build the
task, discover members, skip when the set is empty, otherwise one
broadcast to the discovered set with the fastest-member policy under a
10-second timeout. -/
def dispatchOne (ns imageID path : String) (reg : String → RegResult)
    (op : String) : List Broadcast :=
  let task : Task := ⟨imageID, op, path⟩
  let members := membersOf (workersPfx ns op) (reg op)
  if members.isEmpty then []
  else [⟨members, "fastest", task, 10⟩]

/-- The per-intake-message body of `Coordinator.Act` after the ack:
when `grid.NewClient` fails the message is dropped (`continue`);
otherwise the fan-out loop runs over every configured operation in
order, collecting the broadcasts made. -/
def coordinatorHandle (clientOk : Bool) (ns imageID path : String)
    (reg : String → RegResult) : List Broadcast :=
  if clientOk then (coordinatorOps.map (dispatchOne ns imageID path reg)).flatten
  else []

/-- Pointwise update of a discovery environment at one operation. -/
def regUpdate (reg : String → RegResult) (op : String) (v : RegResult) :
    String → RegResult :=
  fun o => if o = op then v else reg o

/-! ## Worker -/

/-- Result of `w.Server.NewMailbox(mailboxName, 100)` in `Worker.Act`:
success, `grid.ErrAlreadyRegistered`, or any other error. -/
inductive MailboxResult where
  | ok
  | alreadyRegistered
  | otherError
  deriving DecidableEq, Repr

/-- A message drawn from the worker's mailbox: one failing the
`*structpb.Struct` type assertion, or a task carrying its `image_id`,
`op` and `path` fields together with the environment's behaviour for
it — whether `doTransform` succeeds and whether the `grid.NewClient`
for the `transform-updates` push succeeds. -/
inductive WorkerMsg where
  | malformed
  | task (image_id op path : String) (transformOk updClientOk : Bool)
  deriving DecidableEq, Repr

/-- Observable effects of one iteration of the worker's receive loop:
whether `req.Ack()` was called, whether `doTransform` was invoked,
the `req.Respond` payload if any, and the messages pushed to the
`transform-updates` mailbox. -/
structure TaskEffects where
  acked : Bool
  transformAttempted : Bool
  response : Option TaskOutcome
  updates : List TaskOutcome
  deriving DecidableEq, Repr

/-- The variant output path the worker writes:
`filepath.Join(filepath.Dir(path), op + ".jpg")`. -/
def variantPath (path op : String) : String :=
  dirName path ++ "/" ++ op ++ ".jpg"

/-- One iteration of the worker's receive loop, mirroring `Worker.Act`:
malformed messages are acked and skipped; a task whose `op` differs
from a non-empty configured operation is acked and skipped; otherwise
the transform runs, and the outcome — success or failure — is the
response to the coordinator and is pushed to `transform-updates`
(when that push's client can be created).  Matching tasks are never
acked: the code responds instead. -/
def handleTask (supportedOp : String) : WorkerMsg → TaskEffects
  | .malformed => ⟨true, false, none, []⟩
  | .task id op path transformOk updClientOk =>
      if supportedOp ≠ "" ∧ op ≠ supportedOp then ⟨true, false, none, []⟩
      else
        let result : TaskOutcome := ⟨id, op, transformOk, variantPath path op⟩
        ⟨false, true, some result, if updClientOk then [result] else []⟩

/-- The worker's mailbox name: `"worker-" + op + "-" + name` for a
non-empty configured operation, else `"worker"`. -/
def mailboxNameOf (supportedOp name : String) : String :=
  if supportedOp ≠ "" then "worker-" ++ supportedOp ++ "-" ++ name
  else "worker"

/-- The trace of one complete `Worker.Act` run: lifecycle events sent
to `system-events`, etcd keys written and deleted, and the per-message
task effects (normal path only). -/
structure WorkerTrace where
  events : List LifecycleEvent
  puts : List String
  deletes : List String
  taskEffects : List TaskEffects
  deriving Repr

/-- A complete `Worker.Act` run, mirroring the source order: announce
`worker_start` (when that client can be created), `Put` the registry
key, attempt the mailbox.  On `ErrAlreadyRegistered` or any other
mailbox error: `Delete` the key and return — nothing else.  On the
normal path: process the received messages, and on exit the deferred
cleanup announces `worker_stop` (when that client can be created) and
`Delete`s the key. -/
def workerRun (ns supportedOp name : String)
    (startClientOk stopClientOk : Bool) (mb : MailboxResult)
    (msgs : List WorkerMsg) : WorkerTrace :=
  let mailboxName := mailboxNameOf supportedOp name
  let key := workerKey ns supportedOp mailboxName
  let startEvents : List LifecycleEvent :=
    if startClientOk then [⟨"worker_start", name, supportedOp, mailboxName⟩]
    else []
  match mb with
  | .alreadyRegistered => ⟨startEvents, [key], [key], []⟩
  | .otherError => ⟨startEvents, [key], [key], []⟩
  | .ok =>
      let stopEvents : List LifecycleEvent :=
        if stopClientOk then [⟨"worker_stop", name, supportedOp, mailboxName⟩]
        else []
      ⟨startEvents ++ stopEvents, [key], [key],
        msgs.map (handleTask supportedOp)⟩

/-! ## HTTP upload handler -/

/-- The HTTP response `Server.handleUpload` produces: an `http.Error`
with its message and status code, or the JSON body `{"image_id": id}`. -/
inductive UploadResponse where
  | httpError (msg : String) (code : Nat)
  | acceptedJSON (image_id : String)
  deriving DecidableEq, Repr

/-- Observable effects of one `handleUpload` call: the response, the
change to `totalUploads`, the number of `broadcastSnapshot` calls, and
whether the original file ended up saved on disk. -/
structure UploadEffects where
  response : UploadResponse
  uploadsDelta : Int
  snapshotBroadcasts : Nat
  savedToDisk : Bool
  deriving DecidableEq, Repr

/-- Embedding of `Server.handleUpload`, with each fallible external step an input
flag, in source order: `r.FormFile`, `os.MkdirAll`, `os.Create`,
`io.Copy`, `grid.NewClient`, `client.RequestC(r.Context(), "uploads",
payload)`.  A failed `RequestC` is only logged — the handler still
increments `totalUploads`, broadcasts a snapshot and returns the id;
the optional Spanner save likewise only logs and is omitted.  A failed
`grid.NewClient` returns `http.Error(w, "internal", 500)` with the
file already on disk and nothing counted. -/
def handleUpload (formFileOk mkdirOk createOk copyOk clientOk requestOk : Bool)
    (id : String) : UploadEffects :=
  if formFileOk = false then ⟨.httpError "file required" 400, 0, 0, false⟩
  else if mkdirOk = false then ⟨.httpError "cannot create dir" 500, 0, 0, false⟩
  else if createOk = false then ⟨.httpError "save failed" 500, 0, 0, false⟩
  else if copyOk = false then ⟨.httpError "copy failed" 500, 0, 0, false⟩
  else if clientOk = false then ⟨.httpError "internal" 500, 0, 0, true⟩
  else
    let _ := requestOk
    ⟨.acceptedJSON id, 1, 1, true⟩

theorem applyOutcome_variants (s : ServerState) (m : TaskOutcome) :
    (applyOutcome s m).variants = fun id op =>
      if id = m.image_id ∧ op = m.op then
        some ("/images/" ++ m.image_id ++ "/" ++ baseName m.path)
      else s.variants id op := by
  unfold applyOutcome
  dsimp only
  split <;> rfl

theorem applyOutcome_successPerOp (s : ServerState) (m : TaskOutcome)
    (op : String) :
    (applyOutcome s m).successPerOp op =
      if m.success = true ∧ op = m.op then s.successPerOp op + 1
      else s.successPerOp op := by
  unfold applyOutcome
  cases hm : m.success <;> simp [hm]

theorem applyOutcome_failedPerOp (s : ServerState) (m : TaskOutcome)
    (op : String) :
    (applyOutcome s m).failedPerOp op =
      if m.success = false ∧ op = m.op then s.failedPerOp op + 1
      else s.failedPerOp op := by
  unfold applyOutcome
  cases hm : m.success <;> simp [hm]

theorem applyOutcome_failedVariants (s : ServerState) (m : TaskOutcome) :
    (applyOutcome s m).failedVariants =
      if m.success then s.failedVariants else s.failedVariants + 1 := by
  unfold applyOutcome
  cases hm : m.success <;> simp [hm]

theorem applyOutcome_counter_sum (s : ServerState) (m : TaskOutcome)
    (op : String) :
    (applyOutcome s m).successPerOp op + (applyOutcome s m).failedPerOp op =
      s.successPerOp op + s.failedPerOp op +
        (if op = m.op then 1 else 0) := by
  rw [applyOutcome_successPerOp, applyOutcome_failedPerOp]
  cases hm : m.success <;> simp [hm] <;> split <;> omega

theorem countFor_cons (op : String) (m : TaskOutcome) (ms : List TaskOutcome) :
    countFor op (m :: ms) = (if op = m.op then 1 else 0) + countFor op ms := by
  unfold countFor
  by_cases h : op = m.op
  · simp [List.filter_cons, h]
    omega
  · have h2 : ¬ (m.op = op) := fun hc => h hc.symm
    simp [List.filter_cons, h, h2]

theorem processOutcomes_counter_sum (s : ServerState) (ms : List TaskOutcome)
    (op : String) :
    (processOutcomes s ms).successPerOp op + (processOutcomes s ms).failedPerOp op =
      s.successPerOp op + s.failedPerOp op + countFor op ms := by
  induction ms generalizing s with
  | nil => simp [processOutcomes, countFor]
  | cons m ms ih =>
      show (processOutcomes (applyOutcome s m) ms).successPerOp op
            + (processOutcomes (applyOutcome s m) ms).failedPerOp op = _
      rw [ih (applyOutcome s m), applyOutcome_counter_sum, countFor_cons]
      ring

theorem applyOutcome_success_le (s : ServerState) (m : TaskOutcome)
    (op : String) :
    s.successPerOp op ≤ (applyOutcome s m).successPerOp op := by
  rw [applyOutcome_successPerOp]
  split <;> omega

theorem applyOutcome_failed_le (s : ServerState) (m : TaskOutcome)
    (op : String) :
    s.failedPerOp op ≤ (applyOutcome s m).failedPerOp op := by
  rw [applyOutcome_failedPerOp]
  split <;> omega

theorem processOutcomes_success_le (s : ServerState) (ms : List TaskOutcome)
    (op : String) :
    s.successPerOp op ≤ (processOutcomes s ms).successPerOp op := by
  induction ms generalizing s with
  | nil => exact le_refl _
  | cons m ms ih =>
      exact le_trans (applyOutcome_success_le s m op) (ih (applyOutcome s m))

theorem processOutcomes_failed_le (s : ServerState) (ms : List TaskOutcome)
    (op : String) :
    s.failedPerOp op ≤ (processOutcomes s ms).failedPerOp op := by
  induction ms generalizing s with
  | nil => exact le_refl _
  | cons m ms ih =>
      exact le_trans (applyOutcome_failed_le s m op) (ih (applyOutcome s m))

/-- Claim C3: each processed outcome increments exactly one of the
per-operation success/failure counters (the sum for `m.op` rises by
exactly one and at least one of the two counters is unchanged); from
the initial state, `success_count[op] + failed_count[op]` equals the
number of outcomes observed for `op`; and both per-operation counters
are monotonically non-decreasing under processing further outcomes. -/
theorem outcome_counters_exactly_one :
    (∀ (s : ServerState) (m : TaskOutcome),
      (applyOutcome s m).successPerOp m.op + (applyOutcome s m).failedPerOp m.op
          = s.successPerOp m.op + s.failedPerOp m.op + 1
        ∧ ((applyOutcome s m).successPerOp m.op = s.successPerOp m.op
            ∨ (applyOutcome s m).failedPerOp m.op = s.failedPerOp m.op))
    ∧ (∀ (ms : List TaskOutcome) (op : String),
        (processOutcomes initialServer ms).successPerOp op
            + (processOutcomes initialServer ms).failedPerOp op
          = countFor op ms)
    ∧ ∀ (ms rest : List TaskOutcome) (op : String),
        (processOutcomes initialServer ms).successPerOp op
            ≤ (processOutcomes initialServer (ms ++ rest)).successPerOp op
          ∧ (processOutcomes initialServer ms).failedPerOp op
            ≤ (processOutcomes initialServer (ms ++ rest)).failedPerOp op := by
  refine ⟨fun s m => ⟨?_, ?_⟩, fun ms op => ?_, fun ms rest op => ⟨?_, ?_⟩⟩
  · rw [applyOutcome_counter_sum]; simp
  · rw [applyOutcome_successPerOp, applyOutcome_failedPerOp]
    cases hm : m.success <;> simp [hm]
  · rw [processOutcomes_counter_sum]; simp [initialServer]
  · unfold processOutcomes
    rw [List.foldl_append]
    exact processOutcomes_success_le _ rest op
  · unfold processOutcomes
    rw [List.foldl_append]
    exact processOutcomes_failed_le _ rest op

/-- Claim C2, counterexample: processing a failed outcome (success =
false) for ("img1","blur") from the initial state does create a
variant-map entry for that pair — `subscribeUpdates` updates the
variant map before it inspects the success flag. -/
theorem failed_outcome_creates_variant_entry :
    initialServer.variants "img1" "blur" = none
    ∧ (TaskOutcome.mk "img1" "blur" false "/data/img1/blur.jpg").success = false
    ∧ (applyOutcome initialServer
        (TaskOutcome.mk "img1" "blur" false "/data/img1/blur.jpg")).variants
          "img1" "blur" = some "/images/img1/blur.jpg" := by
  refine ⟨rfl, rfl, ?_⟩
  rw [applyOutcome_variants]
  decide

/-- Claim C2, amended: every processed outcome — failed ones included —
writes the variant-map entry for (image, operation); a failed outcome
additionally increments the failure counters, so failure is observable
through the failure counters but *not* through the absence of a
variant-map entry. -/
theorem variant_map_written_for_every_outcome (s : ServerState)
    (m : TaskOutcome) :
    (applyOutcome s m).variants m.image_id m.op
        = some ("/images/" ++ m.image_id ++ "/" ++ baseName m.path)
      ∧ (applyOutcome s m).failedPerOp m.op
        = (if m.success then s.failedPerOp m.op else s.failedPerOp m.op + 1)
      ∧ (applyOutcome s m).failedVariants
        = (if m.success then s.failedVariants else s.failedVariants + 1) := by
  refine ⟨?_, ?_, applyOutcome_failedVariants s m⟩
  · rw [applyOutcome_variants]; simp
  · rw [applyOutcome_failedPerOp]
    cases hm : m.success <;> simp [hm]

theorem applyLifecycle_startedWorkers (s : ServerState) (e : LifecycleEvent) :
    (applyLifecycle s e).startedWorkers =
      if e.event = "worker_start" then s.startedWorkers + 1
      else s.startedWorkers := by
  unfold applyLifecycle
  split
  · simp_all
  · split <;> simp_all

theorem applyLifecycle_started_le (s : ServerState) (e : LifecycleEvent) :
    s.startedWorkers ≤ (applyLifecycle s e).startedWorkers := by
  rw [applyLifecycle_startedWorkers]
  split <;> omega

theorem processLifecycles_started_le (s : ServerState)
    (es : List LifecycleEvent) :
    s.startedWorkers ≤ (processLifecycles s es).startedWorkers := by
  induction es generalizing s with
  | nil => exact le_refl _
  | cons e es ih =>
      exact le_trans (applyLifecycle_started_le s e) (ih (applyLifecycle s e))

theorem applyLifecycle_inv (s : ServerState) (e : LifecycleEvent)
    (h : lifecycleInv s) : lifecycleInv (applyLifecycle s e) := by
  obtain ⟨hg, hop⟩ := h
  unfold applyLifecycle
  split
  · refine ⟨by dsimp only; omega, fun op => ?_⟩
    dsimp only
    split
    · have := hop op; omega
    · exact hop op
  · split
    · refine ⟨?_, fun op => ?_⟩
      · dsimp only
        split <;> omega
      · dsimp only
        have := hop op
        split
        · split <;> omega
        · exact hop op
    · exact ⟨hg, hop⟩

theorem processLifecycles_inv (s : ServerState) (es : List LifecycleEvent)
    (h : lifecycleInv s) : lifecycleInv (processLifecycles s es) := by
  induction es generalizing s with
  | nil => exact h
  | cons e es ih => exact ih (applyLifecycle s e) (applyLifecycle_inv s e h)

/-- Claim C4: starting from the freshly constructed server state, after
processing any sequence of lifecycle events — duplicated, unmatched or
out-of-order — the global active-worker counter and every
per-operation active-worker counter are non-negative. -/
theorem active_workers_never_negative (es : List LifecycleEvent) :
    0 ≤ (processLifecycles initialServer es).activeWorkers ∧
      ∀ op, 0 ≤ (processLifecycles initialServer es).activeWorkersPerOp op :=
  processLifecycles_inv initialServer es ⟨le_refl 0, fun _ => le_refl 0⟩

/-- Claim C10: the lifetime started-workers counter is incremented by
exactly one on each `worker_start` event, is left unchanged by every
other event (including `worker_stop`), and is therefore monotonically
non-decreasing across any sequence of processed lifecycle events. -/
theorem started_workers_monotone :
    (∀ (s : ServerState) (e : LifecycleEvent),
      (applyLifecycle s e).startedWorkers =
        if e.event = "worker_start" then s.startedWorkers + 1
        else s.startedWorkers) ∧
    ∀ (es rest : List LifecycleEvent),
      (processLifecycles initialServer es).startedWorkers ≤
        (processLifecycles initialServer (es ++ rest)).startedWorkers := by
  refine ⟨applyLifecycle_startedWorkers, fun es rest => ?_⟩
  unfold processLifecycles
  rw [List.foldl_append]
  exact processLifecycles_started_le _ rest

theorem dispatchOne_filter_ne (ns i p : String) (reg : String → RegResult)
    (op2 op : String) (h : op2 ≠ op) :
    (dispatchOne ns i p reg op2).filter (fun b => b.task.op = op) = [] := by
  unfold dispatchOne
  dsimp only
  split
  · rfl
  · simp [h]

theorem dispatchOne_filter_self (ns i p : String) (reg : String → RegResult)
    (op : String) :
    (dispatchOne ns i p reg op).filter (fun b => b.task.op = op) =
      dispatchOne ns i p reg op := by
  unfold dispatchOne
  dsimp only
  split
  · rfl
  · simp

theorem dispatchOne_nonempty (ns i p : String) (reg : String → RegResult)
    (op : String) (hm : membersOf (workersPfx ns op) (reg op) ≠ []) :
    dispatchOne ns i p reg op =
      [⟨membersOf (workersPfx ns op) (reg op), "fastest", ⟨i, op, p⟩, 10⟩] := by
  unfold dispatchOne
  dsimp only
  rw [if_neg]
  simpa [List.isEmpty_iff] using hm

theorem filter_flatten_not_mem (ns i p : String) (reg : String → RegResult)
    (op : String) (l : List String) (h : op ∉ l) :
    ((l.map (dispatchOne ns i p reg)).flatten).filter
        (fun b => b.task.op = op) = [] := by
  induction l with
  | nil => rfl
  | cons a l ih =>
      simp only [List.map_cons, List.flatten_cons, List.filter_append]
      rw [dispatchOne_filter_ne ns i p reg a op
            (fun he => h (he ▸ List.mem_cons_self a l)),
          ih (fun hm => h (List.mem_cons_of_mem a hm))]
      rfl

theorem filter_flatten_mem (ns i p : String) (reg : String → RegResult)
    (op : String) (l : List String) (hnd : l.Nodup) (h : op ∈ l) :
    ((l.map (dispatchOne ns i p reg)).flatten).filter
        (fun b => b.task.op = op) = dispatchOne ns i p reg op := by
  induction l with
  | nil => cases h
  | cons a l ih =>
      simp only [List.map_cons, List.flatten_cons, List.filter_append]
      rcases List.mem_cons.mp h with he | hm
      · subst he
        rw [dispatchOne_filter_self,
            filter_flatten_not_mem ns i p reg op l (List.nodup_cons.mp hnd).1]
        simp
      · have ha : a ≠ op := by
          rintro rfl
          exact (List.nodup_cons.mp hnd).1 hm
        rw [dispatchOne_filter_ne ns i p reg a op ha,
            ih (List.nodup_cons.mp hnd).2 hm]
        simp

/-- Claim C5: per accepted intake message (with the grid client
created), every configured operation whose discovery yields a
non-empty member set gets exactly one broadcast: the task
`{image_id, op, path}` sent to exactly the discovered address set
under the fastest-member group policy with the 10-second timeout. -/
theorem dispatcher_broadcasts_once_per_op (clientOk : Bool)
    (ns imageID path op : String) (reg : String → RegResult)
    (hc : clientOk = true) (hop : op ∈ coordinatorOps)
    (hm : membersOf (workersPfx ns op) (reg op) ≠ []) :
    (coordinatorHandle clientOk ns imageID path reg).filter
        (fun b => b.task.op = op) =
      [⟨membersOf (workersPfx ns op) (reg op), "fastest",
        ⟨imageID, op, path⟩, 10⟩] := by
  subst hc
  unfold coordinatorHandle
  rw [if_pos rfl,
      filter_flatten_mem ns imageID path reg op coordinatorOps (by decide) hop,
      dispatchOne_nonempty ns imageID path reg op hm]

/-- Claim C5, witness: a registry with one blur worker yields exactly
one blur broadcast carrying the 10-second timeout. -/
theorem dispatcher_broadcasts_once_witness :
    (true = true)
    ∧ "blur" ∈ coordinatorOps
    ∧ membersOf (workersPfx "imgsvc" "blur")
        ((fun o => if o = "blur"
            then Except.ok ["/imgsvc/workers/blur/worker-blur-w1"]
            else Except.ok ([] : List String)) "blur") ≠ []
    ∧ (coordinatorHandle true "imgsvc" "img1" "/data/img1/original.png"
        (fun o => if o = "blur"
            then Except.ok ["/imgsvc/workers/blur/worker-blur-w1"]
            else Except.ok ([] : List String))).filter
          (fun b => b.task.op = "blur") =
      [⟨membersOf (workersPfx "imgsvc" "blur")
          ((fun o => if o = "blur"
              then Except.ok ["/imgsvc/workers/blur/worker-blur-w1"]
              else Except.ok ([] : List String)) "blur"), "fastest",
        ⟨"img1", "blur", "/data/img1/original.png"⟩, 10⟩] :=
  ⟨rfl, by decide, by decide,
    dispatcher_broadcasts_once_per_op true "imgsvc" "img1"
      "/data/img1/original.png" "blur" _ rfl (by decide) (by decide)⟩

theorem dispatchOne_congr (ns i p : String) (reg1 reg2 : String → RegResult)
    (op : String) (h : reg1 op = reg2 op) :
    dispatchOne ns i p reg1 op = dispatchOne ns i p reg2 op := by
  unfold dispatchOne
  rw [h]

/-- Claim C6: a registry read error for an operation is
indistinguishable from zero registered workers (same broadcasts as an
empty result), that operation is skipped with nothing surfaced and no
retry, and every other operation's dispatch is untouched. -/
theorem discovery_failure_skipped_silently (clientOk : Bool)
    (ns imageID path op : String) (reg : String → RegResult) :
    coordinatorHandle clientOk ns imageID path
        (regUpdate reg op (.error ())) =
      coordinatorHandle clientOk ns imageID path (regUpdate reg op (.ok []))
    ∧ dispatchOne ns imageID path (regUpdate reg op (.error ())) op = []
    ∧ ∀ op2, op2 ≠ op →
        dispatchOne ns imageID path (regUpdate reg op (.error ())) op2 =
          dispatchOne ns imageID path reg op2 := by
  refine ⟨?_, ?_, fun op2 h => ?_⟩
  · unfold coordinatorHandle
    cases clientOk
    · rfl
    · simp only [if_pos rfl]
      have hmap :
          List.map (dispatchOne ns imageID path (regUpdate reg op (.error ())))
              coordinatorOps =
            List.map (dispatchOne ns imageID path (regUpdate reg op (.ok [])))
              coordinatorOps := by
        apply List.map_congr_left
        intro a _
        by_cases ha : a = op
        · subst ha
          simp [dispatchOne, regUpdate, membersOf]
        · apply dispatchOne_congr
          simp [regUpdate, ha]
      rw [hmap]
  · simp [dispatchOne, regUpdate, membersOf]
  · apply dispatchOne_congr
    simp [regUpdate, h]

/-- Claim C6, witness: with the blur discovery erroring, blur is
skipped and the thumbnail dispatch is unchanged. -/
theorem discovery_failure_witness :
    coordinatorHandle true "imgsvc" "img1" "/data/img1/original.png"
        (regUpdate (fun _ => Except.ok []) "blur" (.error ())) =
      coordinatorHandle true "imgsvc" "img1" "/data/img1/original.png"
        (regUpdate (fun _ => Except.ok []) "blur" (.ok []))
    ∧ dispatchOne "imgsvc" "img1" "/data/img1/original.png"
        (regUpdate (fun _ => Except.ok []) "blur" (.error ())) "blur" = []
    ∧ ("thumbnail" ≠ "blur")
    ∧ dispatchOne "imgsvc" "img1" "/data/img1/original.png"
        (regUpdate (fun _ => Except.ok []) "blur" (.error ())) "thumbnail" =
      dispatchOne "imgsvc" "img1" "/data/img1/original.png"
        (fun _ => Except.ok []) "thumbnail" :=
  ⟨(discovery_failure_skipped_silently true "imgsvc" "img1"
      "/data/img1/original.png" "blur" (fun _ => Except.ok [])).1,
   (discovery_failure_skipped_silently true "imgsvc" "img1"
      "/data/img1/original.png" "blur" (fun _ => Except.ok [])).2.1,
   by decide,
   (discovery_failure_skipped_silently true "imgsvc" "img1"
      "/data/img1/original.png" "blur" (fun _ => Except.ok [])).2.2
     "thumbnail" (by decide)⟩

/-- Claim C7: a task whose `op` differs from the worker's (non-empty,
as every registered worker definition configures) operation is acked
and discarded: no transform attempted, no response, no outcome pushed
— and no error path exists for it. -/
theorem mismatched_task_acked_discarded (supportedOp id op path : String)
    (transformOk updClientOk : Bool)
    (hne : supportedOp ≠ "") (hmid : op ≠ supportedOp) :
    handleTask supportedOp (.task id op path transformOk updClientOk) =
      ⟨true, false, none, []⟩ := by
  simp [handleTask, hne, hmid]

/-- Claim C7, witness: a blur worker discards a thumbnail task. -/
theorem mismatched_task_witness :
    ("blur" ≠ "") ∧ ("thumbnail" ≠ "blur")
    ∧ handleTask "blur"
        (.task "img1" "thumbnail" "/data/img1/original.png" true true) =
      ⟨true, false, none, []⟩ :=
  ⟨by decide, by decide,
    mismatched_task_acked_discarded "blur" "img1" "thumbnail"
      "/data/img1/original.png" true true (by decide) (by decide)⟩

theorem string_take_append_drop (k : String) (n : Nat) :
    k.take n ++ k.drop n = k := by
  apply String.ext
  simp

/-- Claim C8: register and deregister are idempotent on the etcd
keyspace — re-registering an existing (operation, instance) pair and
re-deregistering an absent one are no-ops — and the discovery list
never contains duplicate entries for one instance. -/
theorem registry_idempotent_no_duplicates (ns op inst : String)
    (st : EtcdStore) :
    register ns op inst (register ns op inst st) = register ns op inst st
    ∧ deregister ns op inst (deregister ns op inst st) =
        deregister ns op inst st
    ∧ (workerKey ns op inst ∈ st → register ns op inst st = st)
    ∧ (workerKey ns op inst ∉ st → deregister ns op inst st = st)
    ∧ (listOp ns op st).Nodup := by
  refine ⟨Finset.insert_idem _ _, Finset.erase_idem,
    fun h => Finset.insert_eq_self.mpr h,
    fun h => Finset.erase_eq_of_not_mem h, ?_⟩
  unfold listOp
  refine List.Nodup.map_on ?_ (Finset.sort_nodup _ _)
  intro x hx y hy hxy
  have hx2 : x.take (workersPfx ns op).length = workersPfx ns op :=
    (Finset.mem_filter.mp ((Finset.mem_sort _).mp hx)).2
  have hy2 : y.take (workersPfx ns op).length = workersPfx ns op :=
    (Finset.mem_filter.mp ((Finset.mem_sort _).mp hy)).2
  calc x = x.take (workersPfx ns op).length
            ++ x.drop (workersPfx ns op).length :=
        (string_take_append_drop x _).symm
    _ = y.take (workersPfx ns op).length
            ++ y.drop (workersPfx ns op).length := by rw [hx2, hxy, hy2]
    _ = y := string_take_append_drop y _

/-- Claim C8, witness: instantiated on a registry holding one blur
worker key. -/
theorem registry_idempotent_witness :
    register "imgsvc" "blur" "worker-blur-w1"
        (register "imgsvc" "blur" "worker-blur-w1"
          ({"/imgsvc/workers/blur/worker-blur-w1"} : EtcdStore)) =
      register "imgsvc" "blur" "worker-blur-w1"
        ({"/imgsvc/workers/blur/worker-blur-w1"} : EtcdStore)
    ∧ deregister "imgsvc" "blur" "worker-blur-w1"
        (deregister "imgsvc" "blur" "worker-blur-w1"
          ({"/imgsvc/workers/blur/worker-blur-w1"} : EtcdStore)) =
      deregister "imgsvc" "blur" "worker-blur-w1"
        ({"/imgsvc/workers/blur/worker-blur-w1"} : EtcdStore)
    ∧ (workerKey "imgsvc" "blur" "worker-blur-w1" ∈
          ({"/imgsvc/workers/blur/worker-blur-w1"} : EtcdStore) →
        register "imgsvc" "blur" "worker-blur-w1"
          ({"/imgsvc/workers/blur/worker-blur-w1"} : EtcdStore) =
          ({"/imgsvc/workers/blur/worker-blur-w1"} : EtcdStore))
    ∧ (workerKey "imgsvc" "blur" "worker-blur-w1" ∉
          ({"/imgsvc/workers/blur/worker-blur-w1"} : EtcdStore) →
        deregister "imgsvc" "blur" "worker-blur-w1"
          ({"/imgsvc/workers/blur/worker-blur-w1"} : EtcdStore) =
          ({"/imgsvc/workers/blur/worker-blur-w1"} : EtcdStore))
    ∧ (listOp "imgsvc" "blur"
        ({"/imgsvc/workers/blur/worker-blur-w1"} : EtcdStore)).Nodup :=
  registry_idempotent_no_duplicates "imgsvc" "blur" "worker-blur-w1"
    ({"/imgsvc/workers/blur/worker-blur-w1"} : EtcdStore)

/-- Claim C1, counterexample: on the mailbox name-collision termination
path the worker deletes its registry key but emits **zero**
`worker_stop` events, not one — the stop-and-deregister defer is only
installed after `NewMailbox` succeeds; the error paths delete the key
themselves and return without announcing a stop. -/
theorem worker_stop_missing_on_collision :
    (workerRun "imgsvc" "blur" "w1" true true .alreadyRegistered
        []).events.countP (fun e => e.event = "worker_stop") = 0
    ∧ (workerRun "imgsvc" "blur" "w1" true true .alreadyRegistered
        []).deletes.length = 1
    ∧ ¬ ((workerRun "imgsvc" "blur" "w1" true true .alreadyRegistered
        []).events.countP (fun e => e.event = "worker_stop") = 1) := by
  refine ⟨?_, ?_, ?_⟩ <;> decide

/-- Claim C1, amended: on every termination path — normal exit, name
collision, fatal mailbox error — the worker deletes its registry key
exactly once; but the `worker_stop` event is emitted exactly once only
on the normal-exit path (when the stop-time event client can be
created) and never on the collision or fatal-error paths. -/
theorem worker_deregisters_once (ns supportedOp name : String)
    (startClientOk stopClientOk : Bool) (mb : MailboxResult)
    (msgs : List WorkerMsg) :
    (workerRun ns supportedOp name startClientOk stopClientOk mb
        msgs).deletes =
      [workerKey ns supportedOp (mailboxNameOf supportedOp name)]
    ∧ (workerRun ns supportedOp name startClientOk stopClientOk mb
        msgs).events.countP (fun e => e.event = "worker_stop") =
      (if mb = .ok ∧ stopClientOk = true then 1 else 0) := by
  cases mb <;> cases startClientOk <;> cases stopClientOk <;>
    simp [workerRun, List.countP_cons, List.countP_append]

/-- Claim C9, counterexample: an upload whose file reaches disk but
whose grid client cannot be created is answered with
`http.Error("internal", 500)`: `totalUploads` is not incremented, no
snapshot is broadcast, and no image identifier is returned, even
though the file was saved. -/
theorem saved_upload_not_counted_on_client_error :
    (handleUpload true true true true false false "img1").savedToDisk = true
    ∧ (handleUpload true true true true false false "img1").uploadsDelta = 0
    ∧ (handleUpload true true true true false false "img1").snapshotBroadcasts
        = 0
    ∧ (handleUpload true true true true false false "img1").response =
        .httpError "internal" 500 := by
  refine ⟨?_, ?_, ?_, ?_⟩ <;> rfl

/-- Claim C9, amended: for every upload whose file is saved to disk and
whose grid client is created, the handler increments `totalUploads` by
one, broadcasts one snapshot, and returns the image identifier — even
when the request to the `uploads` mailbox fails (the failure is only
logged), so `totalUploads` counts accepted uploads, not successfully
dispatched ones; if grid-client creation fails the handler instead
returns HTTP 500 without counting, though the file stays on disk. -/
theorem upload_counted_when_accepted (requestOk : Bool) (id : String) :
    handleUpload true true true true true requestOk id =
      ⟨.acceptedJSON id, 1, 1, true⟩
    ∧ handleUpload true true true true false requestOk id =
      ⟨.httpError "internal" 500, 0, 0, true⟩ := by
  cases requestOk <;> exact ⟨rfl, rfl⟩

end ImageFactory
